import Mathlib

/-!
# Verification of the khukuri language pipeline

Shallow embedding of the khukuri interpreter (a small Nepali-keyword
scripting language implemented in Rust: lexer, recursive-descent parser,
tree-walking interpreter) together with proofs about the properties its
specification states.

Modelling conventions:
* Rust `f64` numbers are modelled as `ℚ`.  No claim under scrutiny depends
  on floating-point rounding; division and modulo are exact here.
* Rust `String` values are modelled as Lean `String`; the Rust byte length
  `str::len` is the UTF-8 byte count, computed from `Char.utf8Size`.
* `HashMap` is modelled as an association list whose `insert` overwrites an
  existing key in place or appends; only membership, lookup and insertion
  are exercised by the code paths under study.  `HashMap` iteration order is
  unspecified in Rust; the model iterates in stored order.
* Fallible Rust code returning `Result` becomes an explicit result type;
  a Rust panic (e.g. `Option::unwrap` on `None`) is a distinct outcome, as
  is exhaustion of the step fuel that makes general recursion total.
* Mutation through `&mut self` is explicit state passing; on an error
  return the mutations already performed persist, so every interpreter
  function returns both its result and the updated state.
-/

set_option maxHeartbeats 1000000

namespace Khukuri

/-! ## Value model — `src/value.rs` -/

/-- Runtime values, mirroring `enum Value` in `src/value.rs`.
Dictionaries are association lists standing in for `HashMap<String, Value>`. -/
inductive Value where
  | number (n : ℚ)
  | str (s : String)
  | boolean (b : Bool)
  | list (l : List Value)
  | dictionary (d : List (String × Value))
  | null

/-- The UTF-8 byte count of a Rust `String`, i.e. `str::len`. -/
def rustStrLen (s : String) : Nat :=
  (s.data.map Char.utf8Size).sum

/-- `Value::is_truthy` from `src/value.rs`. -/
def Value.is_truthy : Value → Bool
  | .boolean b => b
  | .null => false
  | .number n => n != 0
  | .str s => !(s.data.isEmpty)
  | .list l => !l.isEmpty
  | .dictionary d => !d.isEmpty

/-- `Value::get_type` from `src/value.rs`. -/
def Value.get_type : Value → String
  | .number _ => "Number"
  | .str _ => "String"
  | .boolean _ => "Boolean"
  | .list _ => "List"
  | .dictionary _ => "Dictionary"
  | .null => "Null"

/-- Rendering of a `Number`: integral floats print without a decimal point
(`fract == 0.0` corresponds to denominator 1).  The decimal rendering of a
non-integral float is approximated; no claim depends on it. -/
def numToString (q : ℚ) : String :=
  if q.den = 1 then toString q.num else toString q

/-- `Vec::join(", ")`. -/
def joinComma : List String → String
  | [] => ""
  | [x] => x
  | x :: xs => x ++ ", " ++ joinComma xs

mutual

/-- `Value::to_string` from `src/value.rs`.  The brace characters of the
dictionary rendering are written with escapes. -/
def Value.to_string : Value → String
  | .number n => numToString n
  | .str s => s
  | .boolean b => if b then "sahi" else "galat"
  | .list l => "[" ++ joinComma (valuesToStrings l) ++ "]"
  | .dictionary d => "\x7b" ++ joinComma (pairsToStrings d) ++ "\x7d"
  | .null => "null"

/-- The element-wise rendering inside `Value::to_string` for lists. -/
def valuesToStrings : List Value → List String
  | [] => []
  | v :: rest => v.to_string :: valuesToStrings rest

/-- The pair-wise rendering inside `Value::to_string` for dictionaries. -/
def pairsToStrings : List (String × Value) → List String
  | [] => []
  | (k, v) :: rest => ("\x22" ++ k ++ "\x22: " ++ v.to_string) :: pairsToStrings rest

end

/-! ## Environment — `src/environment.rs`

Rust keeps `scopes : Vec<HashMap<String, Value>>` with the **last** element
innermost and scans with `.iter().rev()`.  The model stores the innermost
scope at the **head** of the list, so plain left-to-right traversal is the
same innermost-to-outermost search. -/

/-- One scope: a name-to-value map (`HashMap<String, Value>`). -/
abbrev Scope := List (String × Value)

/-- Association-list lookup, standing in for `HashMap::get`. -/
def scopeGet (name : String) : Scope → Option Value
  | [] => none
  | (k, v) :: rest => if k = name then some v else scopeGet name rest

/-- Association-list insert, standing in for `HashMap::insert`:
overwrite the existing entry or append a new one. -/
def scopeInsert (name : String) (v : Value) : Scope → Scope
  | [] => [(name, v)]
  | (k, w) :: rest =>
      if k = name then (k, v) :: rest else (k, w) :: scopeInsert name v rest

/-- The environment: a non-empty-by-construction stack of scopes,
head = innermost. -/
structure Environment where
  scopes : List Scope

/-- `Environment::new`: a single empty global scope. -/
def Environment.new : Environment := ⟨[[]]⟩

/-- `Environment::push_scope`. -/
def Environment.push_scope (e : Environment) : Environment :=
  ⟨[] :: e.scopes⟩

/-- `Environment::pop_scope`: removes the innermost scope unless it is the
sole remaining one. -/
def Environment.pop_scope (e : Environment) : Environment :=
  if e.scopes.length > 1 then ⟨e.scopes.tail⟩ else e

/-- `Environment::define`: insert into the innermost scope
(`scopes.last_mut()`; `None` is unreachable, modelled as a no-op). -/
def Environment.define (e : Environment) (name : String) (v : Value) : Environment :=
  match e.scopes with
  | [] => e
  | s :: rest => ⟨scopeInsert name v s :: rest⟩

/-- Scope-list part of `Environment::get`: scan innermost to outermost,
first hit wins. -/
def envGetGo (name : String) : List Scope → Option Value
  | [] => none
  | s :: rest =>
      match scopeGet name s with
      | some v => some v
      | none => envGetGo name rest

/-- `Environment::get` (the Rust code returns a clone; values are pure
here). -/
def Environment.get (e : Environment) (name : String) : Option Value :=
  envGetGo name e.scopes

/-- Scope-list part of `Environment::set`: overwrite in the nearest scope
that contains the name, or report an undefined variable. -/
def envSetGo (name : String) (v : Value) : List Scope → Except String (List Scope)
  | [] => .error ("Undefined variable: " ++ name)
  | s :: rest =>
      if (scopeGet name s).isSome then .ok (scopeInsert name v s :: rest)
      else
        match envSetGo name v rest with
        | .ok rest2 => .ok (s :: rest2)
        | .error e => .error e

/-- `Environment::set`: the functional mirror of the `&mut self` method;
on failure nothing has been written, so the caller keeps its environment. -/
def Environment.set (e : Environment) (name : String) (v : Value) :
    Except String Environment :=
  match envSetGo name v e.scopes with
  | .ok scs => .ok ⟨scs⟩
  | .error msg => .error msg

/-- `Environment::current_scope_size`. -/
def Environment.current_scope_size (e : Environment) : Nat :=
  e.scopes.length

/-! ## AST — `src/ast.rs` -/

/-- `enum ASTNode`, statements and expressions in one closed sum type. -/
inductive ASTNode where
  | Program (statements : List ASTNode)
  | VarDeclaration (name : String) (type_hint : Option String) (value : ASTNode)
  | Assignment (name : String) (value : ASTNode)
  | IfStatement (condition : ASTNode) (then_block : List ASTNode)
      (else_block : Option (List ASTNode))
  | WhileLoop (condition : ASTNode) (body : List ASTNode)
  | ForEachLoop (varName : String) (iterable : ASTNode) (body : List ASTNode)
  | FunctionDeclaration (name : String) (parameters : List String)
      (body : List ASTNode)
  | Return (e : ASTNode)
  | Print (e : ASTNode)
  | Break
  | Continue
  | Import (filename : String)
  | BinaryOp (left : ASTNode) (operator : String) (right : ASTNode)
  | UnaryOp (operator : String) (operand : ASTNode)
  | FunctionCall (name : String) (arguments : List ASTNode)
  | ListLiteral (elements : List ASTNode)
  | DictionaryLiteral (pairs : List (String × ASTNode))
  | IndexAccess (object : ASTNode) (index : ASTNode)
  | IndexAssignment (object : ASTNode) (index : ASTNode) (value : ASTNode)
  | Identifier (name : String)
  | Number (val : String)
  | String (val : String)
  | Boolean (val : Bool)

/-! ## Pure evaluation helpers — `src/interpreter.rs` -/

/-- Outcome of one interpreter step.  `.err` mirrors `Err(String)`; `.panic`
mirrors a Rust panic (such as `Option::unwrap` on `None`); `.timeout` is the
embedding's fuel exhaustion, standing for a source-level infinite loop. -/
inductive Res (α : Type) where
  | ok (a : α)
  | err (msg : String)
  | panic
  | timeout

/-- `enum ControlFlow` from `src/interpreter.rs`. -/
inductive ControlFlow where
  | Return (v : Value)
  | Break
  | Continue
  | None

/-- Truncation of a rational toward zero, the integral part of an `f64`. -/
def ratTrunc (q : ℚ) : ℤ :=
  if q < 0 then -((-q).floor) else q.floor

/-- The Rust `f64 as usize` cast: truncate toward zero and saturate below at
0.  (Saturation above at `usize::MAX` is not modelled; no claim reaches it.) -/
def f64AsUsize (q : ℚ) : Nat :=
  q.floor.toNat

/-- The Rust `%` on `f64`: `l - r * trunc(l / r)`. -/
def rustFmod (l r : ℚ) : ℚ :=
  l - r * ratTrunc (l / r)

/-- All characters are ASCII digits and there is at least one. -/
def allDigits (l : List Char) : Bool :=
  !l.isEmpty && l.all Char.isDigit

/-- Numeric value of a digit list. -/
def digitsToNat (l : List Char) : Nat :=
  l.foldl (fun acc c => acc * 10 + (c.toNat - 48)) 0

/-- Models `str::parse::<f64>()` on the decimal numerals the language's
lexer and tests produce: `digits`, `digits.`, `digits.digits`, `.digits`.
Other spellings (signs, exponents, `inf`, `NaN`) never reach the
interpreter's `Number` nodes and are treated as parse failures. -/
def parseF64 (s : String) : Option ℚ :=
  match s.data.splitOn '.' with
  | [intPart] =>
      if allDigits intPart then some (digitsToNat intPart) else none
  | [intPart, fracPart] =>
      if allDigits intPart && (fracPart.isEmpty || (fracPart.all Char.isDigit)) then
        some ((digitsToNat intPart : ℚ) +
          (digitsToNat fracPart : ℚ) / ((10 : ℚ) ^ fracPart.length))
      else if intPart.isEmpty && allDigits fracPart then
        some ((digitsToNat fracPart : ℚ) / ((10 : ℚ) ^ fracPart.length))
      else none
  | _ => none

/-- The match over `(left_val, operator, right_val)` in `eval_binary_op`
(`src/interpreter.rs` lines 388–434), after both operands have been
evaluated.  Arm order follows the source; only arms with the same operator
string can overlap, and none do. -/
def applyBinaryOp (left : Value) (operator : String) (right : Value) :
    Except String Value :=
  match left, operator, right with
  | .number l, "+", .number r => .ok (.number (l + r))
  | .number l, "-", .number r => .ok (.number (l - r))
  | .number l, "*", .number r => .ok (.number (l * r))
  | .number l, "/", .number r =>
      if r = 0 then .error "Division by zero" else .ok (.number (l / r))
  | .number l, "%", .number r =>
      if r = 0 then .error "Modulo by zero" else .ok (.number (rustFmod l r))
  | .number l, ">", .number r => .ok (.boolean (decide (l > r)))
  | .number l, "<", .number r => .ok (.boolean (decide (l < r)))
  | .number l, ">=", .number r => .ok (.boolean (decide (l ≥ r)))
  | .number l, "<=", .number r => .ok (.boolean (decide (l ≤ r)))
  | .number l, "==", .number r => .ok (.boolean (decide (l = r)))
  | .number l, "!=", .number r => .ok (.boolean (decide (l ≠ r)))
  | .str l, "+", .str r => .ok (.str (l ++ r))
  | .str l, "==", .str r => .ok (.boolean (decide (l = r)))
  | .str l, "!=", .str r => .ok (.boolean (decide (l ≠ r)))
  | .boolean l, "==", .boolean r => .ok (.boolean (l == r))
  | .boolean l, "!=", .boolean r => .ok (.boolean (l != r))
  | l, "ra", r => .ok (.boolean (l.is_truthy && r.is_truthy))
  | l, "wa", r => .ok (.boolean (l.is_truthy || r.is_truthy))
  | .str l, "+", .number r => .ok (.str (l ++ numToString r))
  | .number l, "+", .str r => .ok (.str (numToString l ++ r))
  | l, op, r =>
      .error ("Invalid operation: " ++ l.to_string ++ " " ++ op ++ " " ++
        r.to_string)

/-- The match in `eval_unary_op` (`src/interpreter.rs` lines 441–451),
after the operand has been evaluated. -/
def applyUnaryOp (operator : String) (val : Value) : Except String Value :=
  if operator = "hoina" then .ok (.boolean (!val.is_truthy))
  else if operator = "-" then
    match val with
    | .number n => .ok (.number (-n))
    | _ => .error "Cannot negate non-number"
  else .error ("Unknown unary operator: " ++ operator)

/-- Dictionary lookup, `HashMap::get` on the association-list model. -/
def dictGet (key : String) : List (String × Value) → Option Value
  | [] => none
  | (k, v) :: rest => if k = key then some v else dictGet key rest

/-- Dictionary insert-or-overwrite, `HashMap::insert`. -/
def dictInsert (key : String) (v : Value) : List (String × Value) →
    List (String × Value)
  | [] => [(key, v)]
  | (k, w) :: rest =>
      if k = key then (k, v) :: rest else (k, w) :: dictInsert key v rest

/-- The read-path indexing match in `evaluate_expression`
(`src/interpreter.rs` lines 336–361), after object and index have been
evaluated.  The string case checks the index against the UTF-8 **byte**
length (`s.len()`) but fetches by **character** position
(`s.chars().nth(idx)`); the `.unwrap()` of a `None` there is a panic. -/
def indexValue (obj idx : Value) : Res Value :=
  match obj, idx with
  | .list list, .number n =>
      let i := f64AsUsize n
      if h : i < list.length then .ok (list.get ⟨i, h⟩)
      else .err ("List index " ++ toString i ++ " out of bounds")
  | .dictionary dict, .str key =>
      match dictGet key dict with
      | some v => .ok v
      | none => .err ("Key \x27" ++ key ++ "\x27 not found in dictionary")
  | .str s, .number n =>
      let i := f64AsUsize n
      if i < rustStrLen s then
        match s.data.get? i with
        | some ch => .ok (.str (String.mk [ch]))
        | none => .panic
      else .err ("String index " ++ toString i ++ " out of bounds")
  | o, ix =>
      .err ("Cannot index " ++ o.get_type ++ " with " ++ ix.get_type)

/-! ## Interpreter state — `src/interpreter.rs` -/

/-- Signal produced by one pass over a loop body (the thrice-repeated
`for stmt in body` pattern in `WhileLoop`/`ForEachLoop`): the body either
fell through (with the local `should_break` flag) or hit `Return`. -/
inductive LoopSignal where
  | done (should_break : Bool)
  | ret (v : Value)

/-- `struct Interpreter`: environment, global function table, and import
bookkeeping.  `imported_modules` models the key set of the
`HashMap<String, bool>` (all stored values are `true` and only
`contains_key` is consulted).  `importing_stack` models the `Vec<String>`
with its most recently pushed element at the **head**, so `Vec::push` is
cons and `Vec::pop` is tail. -/
structure InterpState where
  environment : Environment
  functions : List (String × (List String × List ASTNode))
  imported_modules : List String
  importing_stack : List String

/-- `Interpreter::new`. -/
def InterpState.new : InterpState :=
  ⟨Environment.new, [], [], []⟩

/-- Function-table lookup (`HashMap::get` on `functions`). -/
def funcsGet (name : String) :
    List (String × (List String × List ASTNode)) →
      Option (List String × List ASTNode)
  | [] => none
  | (k, f) :: rest => if k = name then some f else funcsGet name rest

/-- Function-table insert-or-overwrite (`HashMap::insert` on `functions`). -/
def funcsInsert (name : String) (f : List String × List ASTNode) :
    List (String × (List String × List ASTNode)) →
      List (String × (List String × List ASTNode))
  | [] => [(name, f)]
  | (k, g) :: rest =>
      if k = name then (k, f) :: rest else (k, g) :: funcsInsert name f rest

/-- Insertion into the imported-module key set (`HashMap::insert` with value
`true`; only membership is ever observed). -/
def modulesInsert (name : String) (l : List String) : List String :=
  if l.contains name then l else name :: l

/-- `params.iter().zip(arg_values.iter())` followed by `define` for each
pair, left to right (`call_function`, lines 479–481). -/
def bindParams : List String → List Value → Environment → Environment
  | p :: ps, v :: vs, env => bindParams ps vs (env.define p v)
  | _, _, env => env

/-- What `execute_import` obtains from the world before interpreting: the
composition of `fs::read_to_string`, `Lexer::tokenize` and `Parser::parse`
for a given filename, each already wrapped in its import-error message.
The file system is an external collaborator, so the composition is a
parameter of the interpreter. -/
abbrev Loader := String → Except String ASTNode

/-- Sequencing for results that thread the interpreter state: mutations
made before an error persist, exactly as with `&mut self` in Rust. -/
def resBind {α β : Type} (x : Res α × InterpState)
    (f : α → InterpState → Res β × InterpState) : Res β × InterpState :=
  match x with
  | (.ok a, st) => f a st
  | (.err e, st) => (.err e, st)
  | (.panic, st) => (.panic, st)
  | (.timeout, st) => (.timeout, st)

/-! ## The interpreter — `src/interpreter.rs`

Every function consumes one unit of fuel on entry; fuel exhaustion yields
`.timeout` and stands for non-termination of the source program. -/

mutual

/-- `Interpreter::interpret_with_control`. -/
def interpret_with_control (loader : Loader) (fuel : Nat) (node : ASTNode)
    (st : InterpState) : Res ControlFlow × InterpState :=
  match fuel with
  | 0 => (.timeout, st)
  | n + 1 =>
    match node with
    | .Program statements => runStmts loader n statements st
    | .VarDeclaration name _ value =>
        resBind (evaluate_expression loader n value st) fun val st1 =>
          (.ok .None, { st1 with environment := st1.environment.define name val })
    | .Assignment name value =>
        resBind (evaluate_expression loader n value st) fun val st1 =>
          match st1.environment.set name val with
          | .ok env2 => (.ok .None, { st1 with environment := env2 })
          | .error e => (.err e, st1)
    | .IndexAssignment object index value =>
        resBind (evaluate_expression loader n index st) fun index_val st1 =>
        resBind (evaluate_expression loader n value st1) fun new_value st2 =>
          match object with
          | .Identifier name =>
              match st2.environment.get name with
              | some obj =>
                  match obj, index_val with
                  | .list list, .number nq =>
                      let idx := f64AsUsize nq
                      if idx < list.length then
                        match st2.environment.set name
                            (.list (list.set idx new_value)) with
                        | .ok env2 =>
                            (.ok .None, { st2 with environment := env2 })
                        | .error e => (.err e, st2)
                      else
                        (.err ("List index " ++ toString idx ++
                          " out of bounds"), st2)
                  | .dictionary dict, .str key =>
                      match st2.environment.set name
                          (.dictionary (dictInsert key new_value dict)) with
                      | .ok env2 => (.ok .None, { st2 with environment := env2 })
                      | .error e => (.err e, st2)
                  | _, _ => (.err "Invalid index assignment", st2)
              | none => (.err ("Undefined variable: " ++ name), st2)
          | _ => (.err "Invalid left-hand side in index assignment", st2)
    | .IfStatement condition then_block else_block =>
        resBind (evaluate_expression loader n condition st) fun cond_value st1 =>
          if cond_value.is_truthy then
            resBind (runStmts loader n then_block
                { st1 with environment := st1.environment.push_scope })
              fun result st2 =>
                (.ok result, { st2 with environment := st2.environment.pop_scope })
          else
            match else_block with
            | some else_stmts =>
                resBind (runStmts loader n else_stmts
                    { st1 with environment := st1.environment.push_scope })
                  fun result st2 =>
                    (.ok result,
                      { st2 with environment := st2.environment.pop_scope })
            | none => (.ok .None, st1)
    | .WhileLoop condition body => runWhile loader n condition body st
    | .ForEachLoop varName iterable body =>
        resBind (evaluate_expression loader n iterable st) fun iterable_value st1 =>
          match iterable_value with
          | .list items => runForEach loader n varName items body st1
          | .dictionary dict =>
              runForEach loader n varName (dict.map (fun kv => .str kv.fst))
                body st1
          | .str s =>
              runForEach loader n varName
                (s.data.map (fun ch => .str (String.mk [ch]))) body st1
          | v => (.err ("Cannot iterate over " ++ v.get_type), st1)
    | .FunctionDeclaration name parameters body =>
        (.ok .None,
          { st with functions := funcsInsert name (parameters, body) st.functions })
    | .Return expr =>
        resBind (evaluate_expression loader n expr st) fun value st1 =>
          (.ok (.Return value), st1)
    | .Print expr =>
        -- `println!` writes `value.to_string()`; stdout is not modelled.
        resBind (evaluate_expression loader n expr st) fun _ st1 =>
          (.ok .None, st1)
    | .Import filename =>
        resBind (execute_import loader n filename st) fun _ st1 =>
          (.ok .None, st1)
    | .Break => (.ok .Break, st)
    | .Continue => (.ok .Continue, st)
    | other =>
        -- Expression statements: evaluate and discard.
        resBind (evaluate_expression loader n other st) fun _ st1 =>
          (.ok .None, st1)

/-- The statement loop shared by `Program` and the if/else blocks: run
statements in order and stop at (and yield) the first non-`None` flow. -/
def runStmts (loader : Loader) (fuel : Nat) (stmts : List ASTNode)
    (st : InterpState) : Res ControlFlow × InterpState :=
  match fuel with
  | 0 => (.timeout, st)
  | n + 1 =>
    match stmts with
    | [] => (.ok .None, st)
    | stmt :: rest =>
        match interpret_with_control loader n stmt st with
        | (.ok .None, st1) => runStmts loader n rest st1
        | (.ok flow, st1) => (.ok flow, st1)
        | (.err e, st1) => (.err e, st1)
        | (.panic, st1) => (.panic, st1)
        | (.timeout, st1) => (.timeout, st1)

/-- One pass over a loop body (the `for stmt in body` match in
`WhileLoop`/`ForEachLoop`): `Break` sets `should_break`, `Continue` ends the
pass, `Return` is signalled to the enclosing loop handler.  An `Err` from a
statement propagates via `?` before the loop handler pops the iteration
scope. -/
def runLoopBody (loader : Loader) (fuel : Nat) (stmts : List ASTNode)
    (st : InterpState) : Res LoopSignal × InterpState :=
  match fuel with
  | 0 => (.timeout, st)
  | n + 1 =>
    match stmts with
    | [] => (.ok (.done false), st)
    | stmt :: rest =>
        match interpret_with_control loader n stmt st with
        | (.ok .None, st1) => runLoopBody loader n rest st1
        | (.ok .Break, st1) => (.ok (.done true), st1)
        | (.ok .Continue, st1) => (.ok (.done false), st1)
        | (.ok (.Return v), st1) => (.ok (.ret v), st1)
        | (.err e, st1) => (.err e, st1)
        | (.panic, st1) => (.panic, st1)
        | (.timeout, st1) => (.timeout, st1)

/-- The `WhileLoop` arm: re-evaluate the condition each round, run the body
in a fresh scope, pop the scope on every normal exit path (`Break`,
`Continue`, `Return`, fall-through) but not on `Err`. -/
def runWhile (loader : Loader) (fuel : Nat) (condition : ASTNode)
    (body : List ASTNode) (st : InterpState) : Res ControlFlow × InterpState :=
  match fuel with
  | 0 => (.timeout, st)
  | n + 1 =>
    resBind (evaluate_expression loader n condition st) fun cond_value st1 =>
      if !cond_value.is_truthy then (.ok .None, st1)
      else
        match runLoopBody loader n body
            { st1 with environment := st1.environment.push_scope } with
        | (.ok (.done should_break), st2) =>
            let st3 := { st2 with environment := st2.environment.pop_scope }
            if should_break then (.ok .None, st3)
            else runWhile loader n condition body st3
        | (.ok (.ret v), st2) =>
            (.ok (.Return v), { st2 with environment := st2.environment.pop_scope })
        | (.err e, st2) => (.err e, st2)
        | (.panic, st2) => (.panic, st2)
        | (.timeout, st2) => (.timeout, st2)

/-- The `ForEachLoop` arm after the iterable has been evaluated and turned
into the sequence of iteration values (list elements, dictionary keys as
strings, or one-character strings).  Each iteration runs in a fresh scope
with the loop variable defined there. -/
def runForEach (loader : Loader) (fuel : Nat) (varName : String)
    (items : List Value) (body : List ASTNode) (st : InterpState) :
    Res ControlFlow × InterpState :=
  match fuel with
  | 0 => (.timeout, st)
  | n + 1 =>
    match items with
    | [] => (.ok .None, st)
    | item :: rest =>
        match runLoopBody loader n body
            { st with environment :=
                (st.environment.push_scope).define varName item } with
        | (.ok (.done should_break), st2) =>
            let st3 := { st2 with environment := st2.environment.pop_scope }
            if should_break then (.ok .None, st3)
            else runForEach loader n varName rest body st3
        | (.ok (.ret v), st2) =>
            (.ok (.Return v), { st2 with environment := st2.environment.pop_scope })
        | (.err e, st2) => (.err e, st2)
        | (.panic, st2) => (.panic, st2)
        | (.timeout, st2) => (.timeout, st2)

/-- `Interpreter::evaluate_expression`. -/
def evaluate_expression (loader : Loader) (fuel : Nat) (node : ASTNode)
    (st : InterpState) : Res Value × InterpState :=
  match fuel with
  | 0 => (.timeout, st)
  | n + 1 =>
    match node with
    | .BinaryOp left operator right =>
        resBind (evaluate_expression loader n left st) fun left_val st1 =>
        resBind (evaluate_expression loader n right st1) fun right_val st2 =>
          match applyBinaryOp left_val operator right_val with
          | .ok v => (.ok v, st2)
          | .error e => (.err e, st2)
    | .UnaryOp operator operand =>
        resBind (evaluate_expression loader n operand st) fun val st1 =>
          match applyUnaryOp operator val with
          | .ok v => (.ok v, st1)
          | .error e => (.err e, st1)
    | .FunctionCall name arguments => call_function loader n name arguments st
    | .ListLiteral elements =>
        resBind (evalList loader n elements st) fun values st1 =>
          (.ok (.list values), st1)
    | .DictionaryLiteral pairs =>
        resBind (evalPairs loader n [] pairs st) fun dict st1 =>
          (.ok (.dictionary dict), st1)
    | .IndexAccess object index =>
        resBind (evaluate_expression loader n object st) fun obj_val st1 =>
        resBind (evaluate_expression loader n index st1) fun index_val st2 =>
          (indexValue obj_val index_val, st2)
    | .Identifier name =>
        match st.environment.get name with
        | some v => (.ok v, st)
        | none => (.err ("Undefined variable: " ++ name), st)
    | .Number val =>
        match parseF64 val with
        | some q => (.ok (.number q), st)
        | none => (.err ("Invalid number: " ++ val), st)
    | .String val => (.ok (.str val), st)
    | .Boolean val => (.ok (.boolean val), st)
    | _ => (.err "Invalid expression", st)

/-- The element loop of `ListLiteral` evaluation, also used for call
arguments: evaluate left to right, collecting values. -/
def evalList (loader : Loader) (fuel : Nat) (nodes : List ASTNode)
    (st : InterpState) : Res (List Value) × InterpState :=
  match fuel with
  | 0 => (.timeout, st)
  | n + 1 =>
    match nodes with
    | [] => (.ok [], st)
    | e :: rest =>
        resBind (evaluate_expression loader n e st) fun v st1 =>
        resBind (evalList loader n rest st1) fun vs st2 =>
          (.ok (v :: vs), st2)

/-- The pair loop of `DictionaryLiteral` evaluation: evaluate each value
expression and insert under its key. -/
def evalPairs (loader : Loader) (fuel : Nat) (acc : List (String × Value))
    (pairs : List (String × ASTNode)) (st : InterpState) :
    Res (List (String × Value)) × InterpState :=
  match fuel with
  | 0 => (.timeout, st)
  | n + 1 =>
    match pairs with
    | [] => (.ok acc, st)
    | (key, value_expr) :: rest =>
        resBind (evaluate_expression loader n value_expr st) fun v st1 =>
          evalPairs loader n (dictInsert key v acc) rest st1

/-- `Interpreter::call_function`. -/
def call_function (loader : Loader) (fuel : Nat) (name : String)
    (arguments : List ASTNode) (st : InterpState) : Res Value × InterpState :=
  match fuel with
  | 0 => (.timeout, st)
  | n + 1 =>
    match funcsGet name st.functions with
    | none => (.err ("Undefined function: " ++ name), st)
    | some (params, body) =>
        if arguments.length ≠ params.length then
          (.err ("Function " ++ name ++ " expects " ++ toString params.length ++
            " arguments, got " ++ toString arguments.length), st)
        else
          resBind (evalList loader n arguments st) fun arg_values st1 =>
            match runFunctionBody loader n body
                { st1 with environment :=
                    bindParams params arg_values st1.environment.push_scope } with
            | (.ok result, st2) =>
                (.ok result, { st2 with environment := st2.environment.pop_scope })
            | (.err e, st2) => (.err e, st2)
            | (.panic, st2) => (.panic, st2)
            | (.timeout, st2) => (.timeout, st2)

/-- The body loop of `call_function`: `Return` supplies the result and stops,
fall-through yields `Null`, `Break`/`Continue` are errors (and, like any
`Err`, skip the final `pop_scope` via early return). -/
def runFunctionBody (loader : Loader) (fuel : Nat) (stmts : List ASTNode)
    (st : InterpState) : Res Value × InterpState :=
  match fuel with
  | 0 => (.timeout, st)
  | n + 1 =>
    match stmts with
    | [] => (.ok .null, st)
    | stmt :: rest =>
        match interpret_with_control loader n stmt st with
        | (.ok (.Return value), st1) => (.ok value, st1)
        | (.ok .None, st1) => runFunctionBody loader n rest st1
        | (.ok .Break, st1) => (.err "Break statement outside loop", st1)
        | (.ok .Continue, st1) => (.err "Continue statement outside loop", st1)
        | (.err e, st1) => (.err e, st1)
        | (.panic, st1) => (.panic, st1)
        | (.timeout, st1) => (.timeout, st1)

/-- `Interpreter::execute_import` (`src/interpreter.rs` lines 504–543).
The early `?` returns on read/lex/parse failure leave the in-progress
marker on the stack; after interpretation, the pop of the marker and the
insertion into `imported_modules` happen before the captured result is
propagated. -/
def execute_import (loader : Loader) (fuel : Nat) (filename : String)
    (st : InterpState) : Res Unit × InterpState :=
  match fuel with
  | 0 => (.timeout, st)
  | n + 1 =>
    if st.imported_modules.contains filename then (.ok (), st)
    else if st.importing_stack.contains filename then
      (.err ("Circular import bhettayo bro: " ++ filename), st)
    else
      let st1 := { st with importing_stack := filename :: st.importing_stack }
      match loader filename with
      | .error e => (.err e, st1)
      | .ok ast =>
          match interpret_with_control loader n ast st1 with
          | (.ok _, st2) =>
              (.ok (),
                { st2 with
                  importing_stack := st2.importing_stack.tail,
                  imported_modules := modulesInsert filename st2.imported_modules })
          | (.err e, st2) =>
              (.err ("Runtime error imported file \x27" ++ filename ++
                  "\x27 ma: " ++ e),
                { st2 with
                  importing_stack := st2.importing_stack.tail,
                  imported_modules := modulesInsert filename st2.imported_modules })
          | (.panic, st2) => (.panic, st2)
          | (.timeout, st2) => (.timeout, st2)

end

/-- `Interpreter::interpret`: the public entry point. -/
def interpret (loader : Loader) (fuel : Nat) (node : ASTNode)
    (st : InterpState) : Res Value × InterpState :=
  match interpret_with_control loader fuel node st with
  | (.ok (.Return value), st1) => (.ok value, st1)
  | (.ok .None, st1) => (.ok .null, st1)
  | (.ok .Break, st1) => (.err "Break statement outside loop", st1)
  | (.ok .Continue, st1) => (.err "Continue statement outside loop", st1)
  | (.err e, st1) => (.err e, st1)
  | (.panic, st1) => (.panic, st1)
  | (.timeout, st1) => (.timeout, st1)

/-! ## Tokens — `src/token.rs` -/

/-- `enum TokenType`. -/
inductive TokenType where
  | Keyword
  | Identifier
  | Number
  | String
  | Operator
  | LBrace
  | RBrace
  | LParen
  | RParen
  | LBracket
  | RBracket
  | Comma
  | Colon
  | Newline
  | EOF
deriving DecidableEq, Repr

/-- The `Debug` rendering of a `TokenType` (used in parser error text). -/
def tokenTypeDebugStr : TokenType → String
  | .Keyword => "Keyword"
  | .Identifier => "Identifier"
  | .Number => "Number"
  | .String => "String"
  | .Operator => "Operator"
  | .LBrace => "LBrace"
  | .RBrace => "RBrace"
  | .LParen => "LParen"
  | .RParen => "RParen"
  | .LBracket => "LBracket"
  | .RBracket => "RBracket"
  | .Comma => "Comma"
  | .Colon => "Colon"
  | .Newline => "Newline"
  | .EOF => "EOF"

/-- `struct Token`. -/
structure Token where
  token_type : TokenType
  value : String
  line : Nat
  column : Nat
deriving DecidableEq, Repr

/-! ## Lexer — `src/lexer.rs`

The lexer walks a `Vec<char>` with a position; the model carries the list
of remaining characters together with the 1-based line and column.  Two
character classes are approximated: Rust's `char::is_whitespace` and
`char::is_alphanumeric`/`is_alphabetic` are full Unicode classes while the
model uses Lean's ASCII-oriented `Char.isWhitespace`/`Char.isAlphanum`/
`Char.isAlpha`; no claim involves the characters on which they differ. -/

/-- `Lexer::advance`'s position update for one consumed character. -/
def advancePos (c : Char) (line col : Nat) : Nat × Nat :=
  if c = '\n' then (line + 1, 1) else (line, col + 1)

/-- The keyword table built in `Lexer::new`. -/
def keywords : List String :=
  ["maanau", "yedi", "bhane", "natra", "jaba", "samma", "pratyek", "ma",
   "kaam", "pathau", "bhan", "sodha", "rok", "jane", "ra", "wa", "hoina",
   "sahi", "galat", "aayaat"]

/-- `Lexer::skip_whitespace`: consume whitespace other than newline. -/
def skipWhitespace : List Char → Nat → Nat → List Char × Nat × Nat
  | [], line, col => ([], line, col)
  | c :: rest, line, col =>
      if c.isWhitespace ∧ c ≠ '\n' then
        let p := advancePos c line col
        skipWhitespace rest p.1 p.2
      else (c :: rest, line, col)

/-- `Lexer::skip_comment`: consume up to (not including) the newline. -/
def skipComment : List Char → Nat → Nat → List Char × Nat × Nat
  | [], line, col => ([], line, col)
  | c :: rest, line, col =>
      if c = '\n' then (c :: rest, line, col)
      else skipComment rest line (col + 1)

/-- `Lexer::read_number` (`src/lexer.rs` lines 98–116): consume digits and
at most one dot; a second dot ends the token.  Returns the consumed
characters and the rest. -/
def read_number (l : List Char) (has_dot : Bool) : List Char × List Char :=
  match l with
  | [] => ([], [])
  | c :: rest =>
      if c.isDigit then
        let p := read_number rest has_dot
        (c :: p.1, p.2)
      else if c = '.' ∧ has_dot = false then
        let p := read_number rest true
        (c :: p.1, p.2)
      else ([], c :: rest)

/-- `Lexer::read_identifier`: consume alphanumerics and underscores. -/
def read_identifier (l : List Char) : List Char × List Char :=
  match l with
  | [] => ([], [])
  | c :: rest =>
      if c.isAlphanum ∨ c = '_' then
        let p := read_identifier rest
        (c :: p.1, p.2)
      else ([], c :: rest)

/-- `Lexer::read_string` after the opening quote has been consumed:
process escapes, fail on end of input or a raw newline, consume the closing
quote.  Returns the content, the rest, and the updated position. -/
def readStringBody : List Char → Nat → Nat →
    Except String (List Char × List Char × Nat × Nat)
  | [], _, _ => .error "Unterminated string literal"
  | c :: rest, line, col =>
      if c = '"' then .ok ([], rest, line, col + 1)
      else if c = '\\' then
        match rest with
        | [] => .error "Unterminated string literal"
        | e :: rest2 =>
            let pushed : Char :=
              if e = 'n' then '\n'
              else if e = 't' then '\t'
              else if e = 'r' then '\r'
              else e
            let p := advancePos e line (col + 1)
            match readStringBody rest2 p.1 p.2 with
            | .ok (s, r, l3, c3) => .ok (pushed :: s, r, l3, c3)
            | .error msg => .error msg
      else if c = '\n' then .error "Unterminated string literal"
      else
        match readStringBody rest line (col + 1) with
        | .ok (s, r, l3, c3) => .ok (c :: s, r, l3, c3)
        | .error msg => .error msg

/-- `Lexer::read_operator`: greedy two-character forms first. -/
def read_operator : List Char → String × List Char
  | '=' :: '=' :: rest => ("==", rest)
  | '=' :: rest => ("=", rest)
  | '!' :: '=' :: rest => ("!=", rest)
  | '!' :: rest => ("!", rest)
  | '>' :: '=' :: rest => (">=", rest)
  | '>' :: rest => (">", rest)
  | '<' :: '=' :: rest => ("<=", rest)
  | '<' :: rest => ("<", rest)
  | c :: rest => (String.mk [c], rest)
  | [] => ("", [])

/-- The main loop of `Lexer::tokenize` (`src/lexer.rs` lines 211–383).
Each iteration consumes at least one character, so fuel `length + 1`
never runs out; the fuel-out error is unreachable. -/
def tokenizeGo (fuel : Nat) (chars : List Char) (line col : Nat) :
    Except String (List Token) :=
  match fuel with
  | 0 => .error "lexer fuel exhausted"
  | n + 1 =>
    match chars with
    | [] => .ok [⟨.EOF, "", line, col⟩]
    | ch :: rest =>
        if ch = ' ' ∨ ch = '\t' ∨ ch = '\r' then
          let p := skipWhitespace (ch :: rest) line col
          tokenizeGo n p.1 p.2.1 p.2.2
        else if ch = '\n' then
          match tokenizeGo n rest (line + 1) 1 with
          | .ok toks => .ok (⟨.Newline, "\n", line, col⟩ :: toks)
          | .error e => .error e
        else if ch = '/' ∧ rest.head? = some '/' then
          let p := skipComment (ch :: rest) line col
          tokenizeGo n p.1 p.2.1 p.2.2
        else if ch = '"' then
          match readStringBody rest line (col + 1) with
          | .error e => .error e
          | .ok (s, r, l2, c2) =>
              match tokenizeGo n r l2 c2 with
              | .ok toks => .ok (⟨.String, String.mk s, line, col⟩ :: toks)
              | .error e => .error e
        else if ch.isDigit then
          let p := read_number (ch :: rest) false
          match tokenizeGo n p.2 line (col + p.1.length) with
          | .ok toks => .ok (⟨.Number, String.mk p.1, line, col⟩ :: toks)
          | .error e => .error e
        else if ch.isAlpha ∨ ch = '_' then
          let p := read_identifier (ch :: rest)
          let idStr := String.mk p.1
          let tt : TokenType :=
            if keywords.contains idStr then .Keyword else .Identifier
          match tokenizeGo n p.2 line (col + p.1.length) with
          | .ok toks => .ok (⟨tt, idStr, line, col⟩ :: toks)
          | .error e => .error e
        else if ch = '=' ∨ ch = '!' ∨ ch = '>' ∨ ch = '<' ∨ ch = '+' ∨
            ch = '-' ∨ ch = '*' ∨ ch = '/' ∨ ch = '%' then
          let p := read_operator (ch :: rest)
          match tokenizeGo n p.2 line (col + p.1.length) with
          | .ok toks => .ok (⟨.Operator, p.1, line, col⟩ :: toks)
          | .error e => .error e
        else if ch = '{' then
          match tokenizeGo n rest line (col + 1) with
          | .ok toks => .ok (⟨.LBrace, "\x7b", line, col⟩ :: toks)
          | .error e => .error e
        else if ch = '}' then
          match tokenizeGo n rest line (col + 1) with
          | .ok toks => .ok (⟨.RBrace, "\x7d", line, col⟩ :: toks)
          | .error e => .error e
        else if ch = '(' then
          match tokenizeGo n rest line (col + 1) with
          | .ok toks => .ok (⟨.LParen, "(", line, col⟩ :: toks)
          | .error e => .error e
        else if ch = ')' then
          match tokenizeGo n rest line (col + 1) with
          | .ok toks => .ok (⟨.RParen, ")", line, col⟩ :: toks)
          | .error e => .error e
        else if ch = '[' then
          match tokenizeGo n rest line (col + 1) with
          | .ok toks => .ok (⟨.LBracket, "[", line, col⟩ :: toks)
          | .error e => .error e
        else if ch = ']' then
          match tokenizeGo n rest line (col + 1) with
          | .ok toks => .ok (⟨.RBracket, "]", line, col⟩ :: toks)
          | .error e => .error e
        else if ch = ',' then
          match tokenizeGo n rest line (col + 1) with
          | .ok toks => .ok (⟨.Comma, ",", line, col⟩ :: toks)
          | .error e => .error e
        else if ch = ':' then
          match tokenizeGo n rest line (col + 1) with
          | .ok toks => .ok (⟨.Colon, ":", line, col⟩ :: toks)
          | .error e => .error e
        else
          .error ("Unexpected character \x27" ++ String.mk [ch] ++
            "\x27 at line " ++ toString line ++ ", column " ++ toString col)

/-- `Lexer::tokenize` on a source string, starting at line 1, column 1. -/
def tokenize (code : String) : Except String (List Token) :=
  tokenizeGo (code.length + 1) code.data 1 1

/-! ## Parser, expression grammar — `src/parser.rs` lines 428–718

The parser walks the token vector with a position; the model carries the
list of remaining tokens (`current_token` is the head, `None` when empty).
Each production returns the parsed node and the remaining tokens.  The
statement productions are not needed by the properties under study; the
expression grammar below is the complete precedence chain rooted at
`parse_expression`.  All functions consume one unit of fuel on entry. -/

/-- `Parser::expect`. -/
def expectToken (tt : TokenType) (toks : List Token) :
    Except String (Token × List Token) :=
  match toks with
  | t :: rest =>
      if t.token_type = tt then .ok (t, rest)
      else
        .error ("Expected " ++ tokenTypeDebugStr tt ++ ", found " ++
          tokenTypeDebugStr t.token_type ++ " at line " ++ toString t.line)
  | [] => .error ("Expected " ++ tokenTypeDebugStr tt ++ ", found EOF")

/-- `Parser::skip_newlines`. -/
def skipNewlinesToks : List Token → List Token
  | [] => []
  | t :: rest =>
      if t.token_type = .Newline then skipNewlinesToks rest else t :: rest

mutual

/-- `Parser::parse_expression`: the top of the precedence chain. -/
def parse_expression (fuel : Nat) (toks : List Token) :
    Except String (ASTNode × List Token) :=
  match fuel with
  | 0 => .error "parser fuel exhausted"
  | n + 1 => parse_logical_or n toks

/-- `Parser::parse_logical_or`. -/
def parse_logical_or (fuel : Nat) (toks : List Token) :
    Except String (ASTNode × List Token) :=
  match fuel with
  | 0 => .error "parser fuel exhausted"
  | n + 1 =>
    match parse_logical_and n toks with
    | .ok (left, r) => parseOrLoop n left r
    | .error e => .error e

/-- The `while` loop of `parse_logical_or`. -/
def parseOrLoop (fuel : Nat) (left : ASTNode) (toks : List Token) :
    Except String (ASTNode × List Token) :=
  match fuel with
  | 0 => .error "parser fuel exhausted"
  | n + 1 =>
    match toks with
    | t :: rest =>
        if t.token_type = .Keyword ∧ t.value = "wa" then
          match parse_logical_and n rest with
          | .ok (right, r2) =>
              parseOrLoop n (.BinaryOp left t.value right) r2
          | .error e => .error e
        else .ok (left, toks)
    | [] => .ok (left, toks)

/-- `Parser::parse_logical_and`. -/
def parse_logical_and (fuel : Nat) (toks : List Token) :
    Except String (ASTNode × List Token) :=
  match fuel with
  | 0 => .error "parser fuel exhausted"
  | n + 1 =>
    match parse_comparison n toks with
    | .ok (left, r) => parseAndLoop n left r
    | .error e => .error e

/-- The `while` loop of `parse_logical_and`. -/
def parseAndLoop (fuel : Nat) (left : ASTNode) (toks : List Token) :
    Except String (ASTNode × List Token) :=
  match fuel with
  | 0 => .error "parser fuel exhausted"
  | n + 1 =>
    match toks with
    | t :: rest =>
        if t.token_type = .Keyword ∧ t.value = "ra" then
          match parse_comparison n rest with
          | .ok (right, r2) =>
              parseAndLoop n (.BinaryOp left t.value right) r2
          | .error e => .error e
        else .ok (left, toks)
    | [] => .ok (left, toks)

/-- `Parser::parse_comparison`. -/
def parse_comparison (fuel : Nat) (toks : List Token) :
    Except String (ASTNode × List Token) :=
  match fuel with
  | 0 => .error "parser fuel exhausted"
  | n + 1 =>
    match parse_addition n toks with
    | .ok (left, r) => parseCmpLoop n left r
    | .error e => .error e

/-- The `while` loop of `parse_comparison`. -/
def parseCmpLoop (fuel : Nat) (left : ASTNode) (toks : List Token) :
    Except String (ASTNode × List Token) :=
  match fuel with
  | 0 => .error "parser fuel exhausted"
  | n + 1 =>
    match toks with
    | t :: rest =>
        if t.token_type = .Operator ∧
            (t.value = "==" ∨ t.value = "!=" ∨ t.value = ">" ∨
             t.value = "<" ∨ t.value = ">=" ∨ t.value = "<=") then
          match parse_addition n rest with
          | .ok (right, r2) =>
              parseCmpLoop n (.BinaryOp left t.value right) r2
          | .error e => .error e
        else .ok (left, toks)
    | [] => .ok (left, toks)

/-- `Parser::parse_addition`. -/
def parse_addition (fuel : Nat) (toks : List Token) :
    Except String (ASTNode × List Token) :=
  match fuel with
  | 0 => .error "parser fuel exhausted"
  | n + 1 =>
    match parse_multiplication n toks with
    | .ok (left, r) => parseAddLoop n left r
    | .error e => .error e

/-- The `while` loop of `parse_addition`. -/
def parseAddLoop (fuel : Nat) (left : ASTNode) (toks : List Token) :
    Except String (ASTNode × List Token) :=
  match fuel with
  | 0 => .error "parser fuel exhausted"
  | n + 1 =>
    match toks with
    | t :: rest =>
        if t.token_type = .Operator ∧ (t.value = "+" ∨ t.value = "-") then
          match parse_multiplication n rest with
          | .ok (right, r2) =>
              parseAddLoop n (.BinaryOp left t.value right) r2
          | .error e => .error e
        else .ok (left, toks)
    | [] => .ok (left, toks)

/-- `Parser::parse_multiplication`. -/
def parse_multiplication (fuel : Nat) (toks : List Token) :
    Except String (ASTNode × List Token) :=
  match fuel with
  | 0 => .error "parser fuel exhausted"
  | n + 1 =>
    match parse_unary n toks with
    | .ok (left, r) => parseMulLoop n left r
    | .error e => .error e

/-- The `while` loop of `parse_multiplication`. -/
def parseMulLoop (fuel : Nat) (left : ASTNode) (toks : List Token) :
    Except String (ASTNode × List Token) :=
  match fuel with
  | 0 => .error "parser fuel exhausted"
  | n + 1 =>
    match toks with
    | t :: rest =>
        if t.token_type = .Operator ∧
            (t.value = "*" ∨ t.value = "/" ∨ t.value = "%") then
          match parse_unary n rest with
          | .ok (right, r2) =>
              parseMulLoop n (.BinaryOp left t.value right) r2
          | .error e => .error e
        else .ok (left, toks)
    | [] => .ok (left, toks)

/-- `Parser::parse_unary`. -/
def parse_unary (fuel : Nat) (toks : List Token) :
    Except String (ASTNode × List Token) :=
  match fuel with
  | 0 => .error "parser fuel exhausted"
  | n + 1 =>
    match toks with
    | t :: rest =>
        if t.token_type = .Keyword ∧ t.value = "hoina" then
          match parse_unary n rest with
          | .ok (operand, r2) => .ok (.UnaryOp t.value operand, r2)
          | .error e => .error e
        else if t.token_type = .Operator ∧ t.value = "-" then
          match parse_unary n rest with
          | .ok (operand, r2) => .ok (.UnaryOp t.value operand, r2)
          | .error e => .error e
        else parse_primary n toks
    | [] => .error "Unexpected end of input"

/-- `Parser::parse_primary` (the `Debug` formatting of an unexpected token
in the error text is approximated by the token's literal value). -/
def parse_primary (fuel : Nat) (toks : List Token) :
    Except String (ASTNode × List Token) :=
  match fuel with
  | 0 => .error "parser fuel exhausted"
  | n + 1 =>
    match toks with
    | t :: rest =>
        match t.token_type with
        | .Number => .ok (.Number t.value, rest)
        | .String => .ok (.String t.value, rest)
        | .Keyword =>
            if t.value = "sahi" then .ok (.Boolean true, rest)
            else if t.value = "galat" then .ok (.Boolean false, rest)
            else
              .error ("Unexpected keyword \x27" ++ t.value ++
                "\x27 in expression")
        | .Identifier => parsePostfixLoop n (.Identifier t.value) rest
        | .LBracket =>
            let r1 := skipNewlinesToks rest
            match r1 with
            | t2 :: _ =>
                if t2.token_type ≠ .RBracket then
                  match parseListElems n r1 with
                  | .ok (elements, r2) =>
                      match expectToken .RBracket r2 with
                      | .ok (_, r3) => .ok (.ListLiteral elements, r3)
                      | .error e => .error e
                  | .error e => .error e
                else
                  match expectToken .RBracket r1 with
                  | .ok (_, r3) => .ok (.ListLiteral [], r3)
                  | .error e => .error e
            | [] =>
                match expectToken .RBracket r1 with
                | .ok (_, r3) => .ok (.ListLiteral [], r3)
                | .error e => .error e
        | .LBrace =>
            let r1 := skipNewlinesToks rest
            match r1 with
            | t2 :: _ =>
                if t2.token_type ≠ .RBrace then
                  match parseDictPairs n r1 with
                  | .ok (pairs, r2) =>
                      match expectToken .RBrace r2 with
                      | .ok (_, r3) => .ok (.DictionaryLiteral pairs, r3)
                      | .error e => .error e
                  | .error e => .error e
                else
                  match expectToken .RBrace r1 with
                  | .ok (_, r3) => .ok (.DictionaryLiteral [], r3)
                  | .error e => .error e
            | [] =>
                match expectToken .RBrace r1 with
                | .ok (_, r3) => .ok (.DictionaryLiteral [], r3)
                | .error e => .error e
        | .LParen =>
            match parse_expression n rest with
            | .ok (expr, r2) =>
                match expectToken .RParen r2 with
                | .ok (_, r3) => .ok (expr, r3)
                | .error e => .error e
            | .error e => .error e
        | _ => .error ("Unexpected token " ++ t.value ++ " in expression")
    | [] => .error "Unexpected end of input in expression"

/-- The trailing call/index suffix loop inside `parse_primary`'s
`Identifier` arm.  A call suffix is only legal while the accumulated result
is still a bare identifier. -/
def parsePostfixLoop (fuel : Nat) (result : ASTNode) (toks : List Token) :
    Except String (ASTNode × List Token) :=
  match fuel with
  | 0 => .error "parser fuel exhausted"
  | n + 1 =>
    match toks with
    | t :: rest =>
        if t.token_type = .LParen then
          match result with
          | .Identifier func_name =>
              match parseArgsOpt n rest with
              | .ok (arguments, r2) =>
                  match expectToken .RParen r2 with
                  | .ok (_, r3) =>
                      parsePostfixLoop n (.FunctionCall func_name arguments) r3
                  | .error e => .error e
              | .error e => .error e
          | _ => .error "Cannot call function on non-identifier"
        else if t.token_type = .LBracket then
          match parse_expression n rest with
          | .ok (index, r2) =>
              match expectToken .RBracket r2 with
              | .ok (_, r3) =>
                  parsePostfixLoop n (.IndexAccess result index) r3
              | .error e => .error e
          | .error e => .error e
        else .ok (result, toks)
    | [] => .ok (result, toks)

/-- The argument list of a call suffix: empty if the very next token is
`)`, else a comma-separated sequence. -/
def parseArgsOpt (fuel : Nat) (toks : List Token) :
    Except String (List ASTNode × List Token) :=
  match fuel with
  | 0 => .error "parser fuel exhausted"
  | n + 1 =>
    match toks with
    | t :: _ =>
        if t.token_type ≠ .RParen then parseArgsLoop n toks
        else .ok ([], toks)
    | [] => .ok ([], toks)

/-- The comma loop of the argument list. -/
def parseArgsLoop (fuel : Nat) (toks : List Token) :
    Except String (List ASTNode × List Token) :=
  match fuel with
  | 0 => .error "parser fuel exhausted"
  | n + 1 =>
    match parse_expression n toks with
    | .ok (arg, r) =>
        match r with
        | t :: rest2 =>
            if t.token_type = .Comma then
              match parseArgsLoop n rest2 with
              | .ok (args, r2) => .ok (arg :: args, r2)
              | .error e => .error e
            else .ok ([arg], r)
        | [] => .ok ([arg], r)
    | .error e => .error e

/-- The element loop of a list literal (newlines may surround elements). -/
def parseListElems (fuel : Nat) (toks : List Token) :
    Except String (List ASTNode × List Token) :=
  match fuel with
  | 0 => .error "parser fuel exhausted"
  | n + 1 =>
    match parse_expression n toks with
    | .ok (element, r) =>
        let r1 := skipNewlinesToks r
        match r1 with
        | t :: rest2 =>
            if t.token_type = .Comma then
              match parseListElems n (skipNewlinesToks rest2) with
              | .ok (elements, r2) => .ok (element :: elements, r2)
              | .error e => .error e
            else .ok ([element], r1)
        | [] => .ok ([element], r1)
    | .error e => .error e

/-- The pair loop of a dictionary literal: a string key, a colon, a value
expression, separated by commas, with newlines allowed around entries. -/
def parseDictPairs (fuel : Nat) (toks : List Token) :
    Except String (List (String × ASTNode) × List Token) :=
  match fuel with
  | 0 => .error "parser fuel exhausted"
  | n + 1 =>
    match expectToken .String toks with
    | .ok (key_token, r1) =>
        match expectToken .Colon r1 with
        | .ok (_, r2) =>
            match parse_expression n (skipNewlinesToks r2) with
            | .ok (value, r3) =>
                let r4 := skipNewlinesToks r3
                match r4 with
                | t :: rest2 =>
                    if t.token_type = .Comma then
                      match parseDictPairs n (skipNewlinesToks rest2) with
                      | .ok (pairs, r5) =>
                          .ok ((key_token.value, value) :: pairs, r5)
                      | .error e => .error e
                    else .ok ([(key_token.value, value)], r4)
                | [] => .ok ([(key_token.value, value)], r4)
            | .error e => .error e
        | .error e => .error e
    | .error e => .error e

end

/-! ## Harness definitions for the verification statements -/

/-- The four environment operations of `src/environment.rs` that user code
can trigger, for stating the scope-stack invariant. -/
inductive EnvOp where
  | push
  | pop
  | defineOp (name : String) (v : Value)
  | setOp (name : String) (v : Value)

/-- Apply one operation; a failed `set` leaves the environment as it was
(the Rust method returns `Err` having written nothing). -/
def applyEnvOp (e : Environment) : EnvOp → Environment
  | .push => e.push_scope
  | .pop => e.pop_scope
  | .defineOp name v => e.define name v
  | .setOp name v =>
      match e.set name v with
      | .ok e2 => e2
      | .error _ => e

/-- Run a sequence of operations from `Environment::new`. -/
def runEnvOps (ops : List EnvOp) : Environment :=
  ops.foldl applyEnvOp Environment.new

/-- An identifier token as the lexer would produce it (positions are
irrelevant to the parse tree). -/
def identTok (s : String) : Token := ⟨.Identifier, s, 1, 1⟩

/-- A binary-operator token as the lexer would produce it: the word
operators `ra`/`wa` are keyword tokens, the symbol operators are operator
tokens. -/
def operTok (s : String) : Token :=
  ⟨if s = "ra" ∨ s = "wa" then .Keyword else .Operator, s, 1, 1⟩

/-- The end-of-input token. -/
def eofTok : Token := ⟨.EOF, "", 1, 1⟩

/-- The thirteen binary operators of the expression grammar. -/
def binOps : List String :=
  ["*", "/", "%", "+", "-", "==", "!=", ">", "<", ">=", "<=", "ra", "wa"]

/-- Precedence level of a binary operator, 0 = tightest: multiplicative,
additive, comparison, logical-and, logical-or. -/
def opLevel (s : String) : Nat :=
  if s = "*" ∨ s = "/" ∨ s = "%" then 0
  else if s = "+" ∨ s = "-" then 1
  else if s = "==" ∨ s = "!=" ∨ s = ">" ∨ s = "<" ∨ s = ">=" ∨ s = "<=" then 2
  else if s = "ra" then 3
  else 4

/-! ## Lemmas about the environment -/

theorem scopeGet_insert_self (name : String) (v : Value) (s : Scope) :
    scopeGet name (scopeInsert name v s) = some v := by
  induction s with
  | nil => simp [scopeInsert, scopeGet]
  | cons kv rest ih =>
      obtain ⟨k, w⟩ := kv
      by_cases h : k = name
      · simp [scopeInsert, h, scopeGet]
      · simp [scopeInsert, h, scopeGet, ih]

theorem scopeGet_insert_ne (name m : String) (v : Value) (s : Scope)
    (h : m ≠ name) :
    scopeGet m (scopeInsert name v s) = scopeGet m s := by
  induction s with
  | nil => simp [scopeInsert, scopeGet, Ne.symm h]
  | cons kv rest ih =>
      obtain ⟨k, w⟩ := kv
      by_cases hk : k = name
      · subst hk
        simp [scopeInsert, scopeGet, Ne.symm h]
      · simp [scopeInsert, hk, scopeGet, ih]

theorem envSetGo_found (name : String) (v : Value) :
    ∀ (scopes : List Scope) (w : Value), envGetGo name scopes = some w →
      ∃ scs2, envSetGo name v scopes = .ok scs2 ∧
        scs2.length = scopes.length ∧
        envGetGo name scs2 = some v ∧
        ∀ m, m ≠ name → envGetGo m scs2 = envGetGo m scopes := by
  intro scopes
  induction scopes with
  | nil => intro w hw; simp [envGetGo] at hw
  | cons s rest ih =>
      intro w hw
      by_cases hs : (scopeGet name s).isSome
      · refine ⟨scopeInsert name v s :: rest, ?_, ?_, ?_, ?_⟩
        · simp [envSetGo, hs]
        · simp
        · simp [envGetGo, scopeGet_insert_self]
        · intro m hm
          simp only [envGetGo, scopeGet_insert_ne name m v s hm]
      · have hnone : scopeGet name s = none := by
          cases h : scopeGet name s with
          | none => rfl
          | some u => rw [h] at hs; simp at hs
        have hw2 : envGetGo name rest = some w := by
          simpa [envGetGo, hnone] using hw
        obtain ⟨scs2, h1, h2, h3, h4⟩ := ih w hw2
        refine ⟨s :: scs2, ?_, ?_, ?_, ?_⟩
        · simp [envSetGo, hnone, h1]
        · simp [h2]
        · simp [envGetGo, hnone, h3]
        · intro m hm
          simp only [envGetGo]
          cases h : scopeGet m s with
          | some u => rfl
          | none => exact h4 m hm

theorem envSetGo_not_found (name : String) (v : Value) :
    ∀ (scopes : List Scope), envGetGo name scopes = none →
      envSetGo name v scopes = .error ("Undefined variable: " ++ name) := by
  intro scopes
  induction scopes with
  | nil => intro _; simp [envSetGo]
  | cons s rest ih =>
      intro hw
      have hnone : scopeGet name s = none := by
        cases h : scopeGet name s with
        | none => rfl
        | some u => simp [envGetGo, h] at hw
      have hw2 : envGetGo name rest = none := by
        simpa [envGetGo, hnone] using hw
      simp [envSetGo, hnone, ih hw2]

theorem envSetGo_ok_length (name : String) (v : Value) :
    ∀ (scopes scs2 : List Scope), envSetGo name v scopes = .ok scs2 →
      scs2.length = scopes.length := by
  intro scopes
  induction scopes with
  | nil => intro scs2 h; simp [envSetGo] at h
  | cons s rest ih =>
      intro scs2 h
      by_cases hs : (scopeGet name s).isSome
      · simp [envSetGo, hs] at h
        subst h
        simp
      · simp only [envSetGo, hs, if_false, Bool.false_eq_true] at h
        cases h2 : envSetGo name v rest with
        | ok rest2 =>
            rw [h2] at h
            simp at h
            subst h
            simp [ih rest2 h2]
        | error e => rw [h2] at h; simp at h

theorem envSetGo_spec (name : String) (v : Value) :
    ∀ (scopes : List Scope) (w : Value), envGetGo name scopes = some w →
      ∃ k scs2, envSetGo name v scopes = .ok scs2 ∧
        k < scopes.length ∧
        (∀ j, j < k → scopeGet name (scopes.getD j []) = none) ∧
        (scopeGet name (scopes.getD k [])).isSome ∧
        (∀ j, j ≠ k → scs2.getD j [] = scopes.getD j []) ∧
        scs2.getD k [] = scopeInsert name v (scopes.getD k []) := by
  intro scopes
  induction scopes with
  | nil => intro w hw; simp [envGetGo] at hw
  | cons s rest ih =>
      intro w hw
      by_cases hs : (scopeGet name s).isSome
      · refine ⟨0, scopeInsert name v s :: rest, ?_, ?_, ?_, ?_, ?_, ?_⟩
        · simp [envSetGo, hs]
        · simp
        · intro j hj; omega
        · simpa using hs
        · intro j hj
          cases j with
          | zero => exact absurd rfl hj
          | succ j2 => simp
        · simp
      · have hnone : scopeGet name s = none := by
          cases h : scopeGet name s with
          | none => rfl
          | some u => rw [h] at hs; simp at hs
        have hw2 : envGetGo name rest = some w := by
          simpa [envGetGo, hnone] using hw
        obtain ⟨k, scs2, h1, h2, h3, h4, h5, h6⟩ := ih w hw2
        refine ⟨k + 1, s :: scs2, ?_, ?_, ?_, ?_, ?_, ?_⟩
        · simp [envSetGo, hnone, h1]
        · simpa using h2
        · intro j hj
          cases j with
          | zero => simpa using hnone
          | succ j2 => simpa using h3 j2 (by omega)
        · simpa using h4
        · intro j hj
          cases j with
          | zero => simp
          | succ j2 => simpa using h5 j2 (by omega)
        · simpa using h6

/-! ## Lemmas about the float-to-index cast -/

theorem ratFloor_eq_intFloor (q : ℚ) : q.floor = ⌊q⌋ := by
  rw [Rat.floor_def', ← Rat.floor_def]

theorem f64AsUsize_natCast (i : ℕ) : f64AsUsize (i : ℚ) = i := by
  simp [f64AsUsize, ratFloor_eq_intFloor]

theorem f64AsUsize_neg (q : ℚ) (h : q < 0) : f64AsUsize q = 0 := by
  have h1 : (⌊q⌋ : ℚ) ≤ q := Int.floor_le q
  have h2 : (⌊q⌋ : ℚ) < 0 := lt_of_le_of_lt h1 h
  have h3 : ⌊q⌋ < 0 := by exact_mod_cast h2
  simp [f64AsUsize, ratFloor_eq_intFloor, Int.toNat_of_nonpos (le_of_lt h3)]

/-! ## The claims -/

/-- C2: the claim states that when the lexer meets a second `.` inside a
number, the number token ends and tokenization continues at that character
rather than failing.  `read_number` does end the token at the second dot,
but the main `tokenize` loop then has no arm for a bare `.` and aborts with
the unexpected-character `LexerError` — contradicting both the claim and
the lexer's own `test_multiple_dots_in_number`, which `unwrap`s the result.
This theorem records the actual behavior on the input `1.2.3`. -/
theorem C2_second_dot_is_lexer_error :
    read_number "1.2.3".data false = ("1.2".data, ".3".data) ∧
    tokenize "1.2.3" =
      .error "Unexpected character \x27.\x27 at line 1, column 4" := by
  constructor
  · rfl
  · rfl

/-- C3: string index access checks the index against the UTF-8 byte length
but fetches by character position, so any index at least the character
count and below the byte length panics (`unwrap` of `None`); when the byte
length equals the character count (an ASCII-only string) indexing never
panics. -/
theorem C3_string_index_panic (s : String) (q : ℚ) (hq : 0 ≤ q) :
    (s.data.length ≤ f64AsUsize q → f64AsUsize q < rustStrLen s →
      indexValue (.str s) (.number q) = .panic) ∧
    (rustStrLen s = s.data.length →
      indexValue (.str s) (.number q) ≠ .panic) := by
  constructor
  · intro h1 h2
    simp only [indexValue]
    rw [if_pos h2, List.get?_eq_none.mpr h1]
  · intro hbl
    simp only [indexValue]
    by_cases h : f64AsUsize q < rustStrLen s
    · rw [if_pos h]
      have hlen : f64AsUsize q < s.data.length := by omega
      rw [List.get?_eq_get hlen]
      simp
    · rw [if_neg h]
      simp

/-- C5: the word operators `ra` (and) and `wa` (or) accept operands of any
type, coercing each to truthiness, and both operand expressions are always
evaluated: an error from the right operand propagates even when the left
operand alone already determines the result. -/
theorem C5_logical_ops_no_short_circuit (l r : Value) (loader : Loader)
    (n : Nat) (leftE rightE : ASTNode) (op : String)
    (st st1 st2 : InterpState) (e : String)
    (hl : evaluate_expression loader n leftE st = (.ok l, st1))
    (hr : evaluate_expression loader n rightE st1 = (.err e, st2)) :
    applyBinaryOp l "ra" r = .ok (.boolean (l.is_truthy && r.is_truthy)) ∧
    applyBinaryOp l "wa" r = .ok (.boolean (l.is_truthy || r.is_truthy)) ∧
    evaluate_expression loader (n + 1) (.BinaryOp leftE op rightE) st
      = (.err e, st2) := by
  refine ⟨?_, ?_, ?_⟩
  · cases l <;> cases r <;> rfl
  · cases l <;> cases r <;> rfl
  · simp [evaluate_expression, hl, resBind, hr]

/-- C6: division and modulo with a `Number(0)` right operand always fail,
whatever the left operand; with a nonzero right operand they succeed with
the quotient and the remainder. -/
theorem C6_div_mod_by_zero (l r : ℚ) :
    applyBinaryOp (.number l) "/" (.number 0) = .error "Division by zero" ∧
    applyBinaryOp (.number l) "%" (.number 0) = .error "Modulo by zero" ∧
    (r ≠ 0 →
      applyBinaryOp (.number l) "/" (.number r) = .ok (.number (l / r))) ∧
    (r ≠ 0 →
      applyBinaryOp (.number l) "%" (.number r)
        = .ok (.number (rustFmod l r))) := by
  refine ⟨rfl, rfl, ?_, ?_⟩
  · intro h
    have hdef : applyBinaryOp (.number l) "/" (.number r)
        = if r = 0 then .error "Division by zero" else .ok (.number (l / r)) :=
      rfl
    rw [hdef, if_neg h]
  · intro h
    have hdef : applyBinaryOp (.number l) "%" (.number r)
        = if r = 0 then .error "Modulo by zero"
          else .ok (.number (rustFmod l r)) :=
      rfl
    rw [hdef, if_neg h]

/-- Witness for C3: `"é"` is one character of two UTF-8 bytes, so index 1
passes the byte-length bound check and panics on the character fetch. -/
theorem C3_witness : indexValue (.str "é") (.number 1) = .panic :=
  (C3_string_index_panic "é" 1 (by norm_num)).1 (by decide) (by decide)

/-- Witness for C5: a falsy left operand already determines `ra`, yet the
failing right operand aborts the evaluation; and `ra` on a boolean and a
number yields their combined truthiness. -/
theorem C5_witness :
    applyBinaryOp (.boolean false) "ra" (.number 7) = .ok (.boolean false) ∧
    evaluate_expression (fun _ => .error "io") 2
        (.BinaryOp (.Boolean false) "ra" (.Identifier "nope")) InterpState.new
      = (.err "Undefined variable: nope", InterpState.new) := by
  have h := C5_logical_ops_no_short_circuit (Value.boolean false)
    (Value.number 7) (fun _ => .error "io") 1 (.Boolean false)
    (.Identifier "nope") "ra" InterpState.new InterpState.new InterpState.new
    "Undefined variable: nope" rfl rfl
  exact ⟨by simpa using h.1, h.2.2⟩

/-- Witness for C6: `10 / 0` fails, `10 / 2` yields `5`. -/
theorem C6_witness :
    applyBinaryOp (.number 10) "/" (.number 0) = .error "Division by zero" ∧
    applyBinaryOp (.number 10) "/" (.number 2) = .ok (.number 5) := by
  have h := C6_div_mod_by_zero 10 2
  refine ⟨h.1, ?_⟩
  have h2 := h.2.2.1 (by norm_num)
  have h3 : (10 : ℚ) / 2 = 5 := by norm_num
  rw [h2, h3]

theorem applyEnvOp_pos (e : Environment) (op : EnvOp)
    (h : 1 ≤ e.scopes.length) : 1 ≤ (applyEnvOp e op).scopes.length := by
  cases op with
  | push =>
      simp [applyEnvOp, Environment.push_scope]
  | pop =>
      simp only [applyEnvOp, Environment.pop_scope]
      split
      · rename_i h2
        simp only [List.length_tail]
        omega
      · exact h
  | defineOp name v =>
      simp only [applyEnvOp, Environment.define]
      cases hs : e.scopes with
      | nil => rw [hs] at h; simp at h
      | cons s rest => simp
  | setOp name v =>
      simp only [applyEnvOp]
      cases hset : e.set name v with
      | ok e2 =>
          simp only [Environment.set] at hset
          cases hgo : envSetGo name v e.scopes with
          | ok scs =>
              rw [hgo] at hset
              simp only [Except.ok.injEq] at hset
              rw [← hset]
              rw [envSetGo_ok_length name v e.scopes scs hgo]
              exact h
          | error msg => rw [hgo] at hset; simp at hset
      | error msg => exact h

/-- C9: starting from a fresh environment, any sequence of `push_scope`,
`pop_scope`, `define` and `set` leaves at least one scope; `pop_scope`
removes the innermost scope when more than one exists and is a no-op on the
sole global scope. -/
theorem C9_at_least_one_scope (ops : List EnvOp) :
    1 ≤ (runEnvOps ops).scopes.length ∧
    (1 < (runEnvOps ops).scopes.length →
      (runEnvOps ops).pop_scope.scopes = (runEnvOps ops).scopes.tail) ∧
    ((runEnvOps ops).scopes.length = 1 →
      (runEnvOps ops).pop_scope = runEnvOps ops) := by
  have hmain : ∀ (l : List EnvOp) (e : Environment), 1 ≤ e.scopes.length →
      1 ≤ (l.foldl applyEnvOp e).scopes.length := by
    intro l
    induction l with
    | nil => intro e he; simpa using he
    | cons op rest ih =>
        intro e he
        exact ih _ (applyEnvOp_pos e op he)
  refine ⟨hmain ops Environment.new (by simp [Environment.new]), ?_, ?_⟩
  · intro h
    simp only [Environment.pop_scope]
    rw [if_pos h]
  · intro h
    simp only [Environment.pop_scope]
    rw [h]
    simp

/-- Witness for C9: after one `push_scope` there are two scopes and
`pop_scope` removes the innermost one. -/
theorem C9_witness :
    1 ≤ (runEnvOps [EnvOp.push]).scopes.length ∧
    (runEnvOps [EnvOp.push]).pop_scope.scopes
      = (runEnvOps [EnvOp.push]).scopes.tail := by
  have h := C9_at_least_one_scope [EnvOp.push]
  exact ⟨h.1, h.2.1 (by decide)⟩

/-- C8: `set` overwrites the binding in the nearest scope (innermost to
outermost) that already contains the name — index `k` below, everything
nearer missing the name — and leaves every other scope, and every other
binding of scope `k`, unchanged; when no scope contains the name it fails
with the undefined-variable error and, having written nothing, leaves the
environment as it was (the functional `set` returns no environment on
failure and its caller keeps the old one).  `set` never creates a binding. -/
theorem C8_set_nearest_scope (env : Environment) (name : String) (v : Value) :
    (∀ w, env.get name = some w →
      ∃ k env2, env.set name v = .ok env2 ∧
        k < env.scopes.length ∧
        (∀ j, j < k → scopeGet name (env.scopes.getD j []) = none) ∧
        (scopeGet name (env.scopes.getD k [])).isSome ∧
        env2.scopes.length = env.scopes.length ∧
        (∀ j, j ≠ k → env2.scopes.getD j [] = env.scopes.getD j []) ∧
        env2.scopes.getD k [] = scopeInsert name v (env.scopes.getD k []) ∧
        (∀ m, m ≠ name →
          scopeGet m (env2.scopes.getD k [])
            = scopeGet m (env.scopes.getD k [])) ∧
        env2.get name = some v ∧
        (∀ m, m ≠ name → env2.get m = env.get m)) ∧
    (env.get name = none →
      env.set name v = .error ("Undefined variable: " ++ name)) := by
  constructor
  · intro w hw
    obtain ⟨k, scs2, h1, h2, h3, h4, h5, h6⟩ :=
      envSetGo_spec name v env.scopes w hw
    obtain ⟨scs2b, g1, g2, g3, g4⟩ := envSetGo_found name v env.scopes w hw
    rw [h1] at g1
    injection g1 with hbb
    subst hbb
    refine ⟨k, ⟨scs2⟩, ?_, h2, h3, h4, g2, h5, h6, ?_, g3, g4⟩
    · simp [Environment.set, h1]
    · intro m hm
      rw [h6, scopeGet_insert_ne name m v _ hm]
  · intro hw
    simp [Environment.set, envSetGo_not_found name v env.scopes hw]

/-- Witness for C8: overwriting an existing binding succeeds and updates
it; setting an unbound name fails with the undefined-variable error. -/
theorem C8_witness :
    (∃ env2,
      (Environment.new.define "x" (.number 1)).set "x" (.number 2) = .ok env2 ∧
      env2.get "x" = some (.number 2)) ∧
    Environment.new.set "y" (.number 3)
      = .error ("Undefined variable: " ++ "y") := by
  constructor
  · obtain ⟨k, env2, h1, _, _, _, _, _, _, _, h9, _⟩ :=
      (C8_set_nearest_scope (Environment.new.define "x" (.number 1)) "x"
        (.number 2)).1 (.number 1) rfl
    exact ⟨env2, h1, h9⟩
  · exact (C8_set_nearest_scope Environment.new "y" (.number 3)).2 rfl

/-- One unfolding step of `evaluate_expression` on an index access:
evaluate the object, then the index, then apply the pure indexing match. -/
theorem eval_index_access_step (loader : Loader) (n : Nat)
    (object index : ASTNode) (st : InterpState) :
    evaluate_expression loader (n + 1) (.IndexAccess object index) st
      = resBind (evaluate_expression loader n object st) (fun obj_val st1 =>
          resBind (evaluate_expression loader n index st1) (fun index_val st2 =>
            (indexValue obj_val index_val, st2))) := rfl

/-- C4: with a variable bound to a list and an integer index within bounds,
`list[i] = v` stores the updated list back through `set`, immediately
reading `list[i]` yields `v`, and no other variable's value changes (value
semantics: a separately-declared equal list is a different binding and is
untouched).  The index and value expressions are assumed to evaluate purely
(e.g. literals), as in the specification's scenario. -/
theorem C4_list_index_assignment (loader : Loader) (n : Nat) (name : String)
    (idxE valE : ASTNode) (i : ℕ) (v : Value) (l : List Value)
    (st : InterpState)
    (hget : st.environment.get name = some (.list l))
    (hi : i < l.length)
    (hidx : ∀ S, evaluate_expression loader (n + 1) idxE S
      = (.ok (.number (i : ℚ)), S))
    (hval : ∀ S, evaluate_expression loader (n + 1) valE S = (.ok v, S)) :
    ∃ env2,
      st.environment.set name (.list (l.set i v)) = .ok env2 ∧
      interpret_with_control loader (n + 2)
          (.IndexAssignment (.Identifier name) idxE valE) st
        = (.ok .None, { st with environment := env2 }) ∧
      evaluate_expression loader (n + 2)
          (.IndexAccess (.Identifier name) idxE)
          { st with environment := env2 }
        = (.ok v, { st with environment := env2 }) ∧
      env2.get name = some (.list (l.set i v)) ∧
      (∀ m, m ≠ name → env2.get m = st.environment.get m) := by
  obtain ⟨scs2, h1, h2, h3, h4⟩ :=
    envSetGo_found name (.list (l.set i v)) st.environment.scopes (.list l) hget
  have hset : st.environment.set name (.list (l.set i v)) = .ok ⟨scs2⟩ := by
    simp [Environment.set, h1]
  refine ⟨⟨scs2⟩, hset, ?_, ?_, h3, h4⟩
  · simp only [interpret_with_control, hidx st, resBind, hval st, hget,
      f64AsUsize_natCast, hset]
    rw [if_pos hi]
  · have hobj : evaluate_expression loader (n + 1) (.Identifier name)
        ({ st with environment := ⟨scs2⟩ } : InterpState)
        = (.ok (.list (l.set i v)), { st with environment := ⟨scs2⟩ }) := by
      simp only [evaluate_expression, Environment.get]
      rw [h3]
    rw [eval_index_access_step, hobj]
    simp only [resBind, hidx ({ st with environment := ⟨scs2⟩ } : InterpState)]
    simp only [indexValue, f64AsUsize_natCast]
    have hlen : i < (l.set i v).length := by simpa using hi
    rw [dif_pos hlen]
    simp [List.getElem_set_self]

/-- Witness for C4: on `xs = [1, 2]`, running `xs[0] = 9` and reading
`xs[0]` yields `9`, leaving any other binding alone. -/
theorem C4_witness :
    ∃ env2,
      ({ InterpState.new with
          environment := Environment.new.define "xs"
            (.list [.number 1, .number 2]) } : InterpState).environment.set
          "xs" (.list ([Value.number 1, .number 2].set 0 (.number 9)))
        = .ok env2 ∧
      interpret_with_control (fun _ => .error "io") 2
          (.IndexAssignment (.Identifier "xs") (.Number "0") (.Number "9"))
          { InterpState.new with
            environment := Environment.new.define "xs"
              (.list [.number 1, .number 2]) }
        = (.ok .None,
            { InterpState.new with environment := env2 }) ∧
      evaluate_expression (fun _ => .error "io") 2
          (.IndexAccess (.Identifier "xs") (.Number "0"))
          { InterpState.new with environment := env2 }
        = (.ok (.number 9), { InterpState.new with environment := env2 }) ∧
      env2.get "xs" = some (.list ([Value.number 1, .number 2].set 0 (.number 9))) ∧
      (∀ m, m ≠ "xs" →
        env2.get m
          = ({ InterpState.new with
              environment := Environment.new.define "xs"
                (.list [.number 1, .number 2]) } : InterpState).environment.get
              m) := by
  obtain ⟨env2, hs, ha, hr, hg, ho⟩ :=
    C4_list_index_assignment (fun _ => .error "io") 0 "xs" (.Number "0")
      (.Number "9") 0 (.number 9) [.number 1, .number 2]
      { InterpState.new with
        environment := Environment.new.define "xs"
          (.list [.number 1, .number 2]) }
      rfl (by decide) (fun S => rfl) (fun S => rfl)
  exact ⟨env2, hs, ha, hr, hg, ho⟩

/-- C7: a negative `Number` index on a non-empty list is saturated to 0 by
the `f64 as usize` cast, so reading yields element 0 and indexed assignment
overwrites element 0 — neither fails with an out-of-bounds error. -/
theorem C7_negative_index_reads_zero (loader : Loader) (n : Nat)
    (name : String) (idxE valE : ASTNode) (q : ℚ) (v : Value)
    (l : List Value) (st : InterpState)
    (hget : st.environment.get name = some (.list l))
    (hne : l ≠ [])
    (hq : q < 0)
    (hidx : ∀ S, evaluate_expression loader (n + 1) idxE S
      = (.ok (.number q), S))
    (hval : ∀ S, evaluate_expression loader (n + 1) valE S = (.ok v, S)) :
    evaluate_expression loader (n + 2)
        (.IndexAccess (.Identifier name) idxE) st
      = (.ok (l.head hne), st) ∧
    ∃ env2, st.environment.set name (.list (l.set 0 v)) = .ok env2 ∧
      interpret_with_control loader (n + 2)
          (.IndexAssignment (.Identifier name) idxE valE) st
        = (.ok .None, { st with environment := env2 }) := by
  have hpos : 0 < l.length := List.length_pos.mpr hne
  constructor
  · have hobj : evaluate_expression loader (n + 1) (.Identifier name) st
        = (.ok (.list l), st) := by
      simp only [evaluate_expression]
      rw [hget]
    rw [eval_index_access_step, hobj]
    simp only [resBind, hidx st]
    simp only [indexValue, f64AsUsize_neg q hq]
    rw [dif_pos hpos]
    cases l with
    | nil => exact absurd rfl hne
    | cons a as => simp
  · obtain ⟨scs2, h1, h2, h3, h4⟩ :=
      envSetGo_found name (.list (l.set 0 v)) st.environment.scopes
        (.list l) hget
    have hset : st.environment.set name (.list (l.set 0 v)) = .ok ⟨scs2⟩ := by
      simp [Environment.set, h1]
    refine ⟨⟨scs2⟩, hset, ?_⟩
    simp only [interpret_with_control, hidx st, resBind, hval st, hget,
      f64AsUsize_neg q hq, hset]
    rw [if_pos hpos]

/-- Witness for C7: on `ys = [5]`, reading `ys[-1]` yields `5` and
`ys[-1] = 7` overwrites element 0. -/
theorem C7_witness :
    evaluate_expression (fun _ => .error "io") 3
        (.IndexAccess (.Identifier "ys") (.UnaryOp "-" (.Number "1")))
        { InterpState.new with
          environment := Environment.new.define "ys" (.list [.number 5]) }
      = (.ok (.number 5),
          { InterpState.new with
            environment := Environment.new.define "ys" (.list [.number 5]) }) ∧
    ∃ env2,
      ({ InterpState.new with
          environment := Environment.new.define "ys"
            (.list [.number 5]) } : InterpState).environment.set "ys"
          (.list ([Value.number 5].set 0 (.number 7)))
        = .ok env2 ∧
      interpret_with_control (fun _ => .error "io") 3
          (.IndexAssignment (.Identifier "ys") (.UnaryOp "-" (.Number "1"))
            (.Number "7"))
          { InterpState.new with
            environment := Environment.new.define "ys" (.list [.number 5]) }
        = (.ok .None, { InterpState.new with environment := env2 }) := by
  have h := C7_negative_index_reads_zero (fun _ => .error "io") 1 "ys"
    (.UnaryOp "-" (.Number "1")) (.Number "7") (-1) (.number 7)
    [.number 5]
    { InterpState.new with
      environment := Environment.new.define "ys" (.list [.number 5]) }
    rfl (by simp) (by norm_num) (fun S => rfl) (fun S => rfl)
  exact ⟨h.1, h.2⟩

/-- C10: the expression grammar applies the precedence chain multiplicative
→ additive → comparison → logical-and (`ra`) → logical-or (`wa`), each
level left-associative.  For identifier operands: when `op2` binds tighter
than `op1` the parse of `a op1 b op2 c` right-nests, and when they share a
level it left-nests with `op2` outermost. -/
theorem C10_precedence (a b c : String) (op1 op2 : String)
    (h1 : op1 ∈ binOps) (h2 : op2 ∈ binOps) :
    (opLevel op2 < opLevel op1 →
      parse_expression 32
          [identTok a, operTok op1, identTok b, operTok op2, identTok c,
            eofTok]
        = .ok (.BinaryOp (.Identifier a) op1
            (.BinaryOp (.Identifier b) op2 (.Identifier c)), [eofTok])) ∧
    (opLevel op1 = opLevel op2 →
      parse_expression 32
          [identTok a, operTok op1, identTok b, operTok op2, identTok c,
            eofTok]
        = .ok (.BinaryOp (.BinaryOp (.Identifier a) op1 (.Identifier b)) op2
            (.Identifier c), [eofTok])) := by
  fin_cases h1 <;> fin_cases h2 <;>
    exact ⟨fun h => by first | rfl | exact absurd h (by decide),
           fun h => by first | rfl | exact absurd h (by decide)⟩

/-- Witness for C10: `x + y * z` parses with the multiplication nested on
the right of the addition. -/
theorem C10_witness :
    parse_expression 32
        [identTok "x", operTok "+", identTok "y", operTok "*", identTok "z",
          eofTok]
      = .ok (.BinaryOp (.Identifier "x") "+"
          (.BinaryOp (.Identifier "y") "*" (.Identifier "z")), [eofTok]) :=
  (C10_precedence "x" "y" "z" "+" "*" (by decide) (by decide)).1 (by decide)

/-- C1 (amended): per interpreter session, an import of an
already-imported filename executes nothing and succeeds with the state
unchanged; a filename currently on the in-progress import stack fails with
the circular-import error; once the file loads (read + lex + parse), the
in-progress marker is popped and — contrary to the original claim — the
filename is recorded as imported whether interpretation succeeded or
failed, so a later import of a failed module executes nothing; and when
loading itself fails, the error propagates with the marker still pushed. -/
theorem C1_import_bookkeeping (loader : Loader) (n : Nat) (filename : String)
    (st : InterpState) (prog : ASTNode) :
    (filename ∈ st.imported_modules →
      execute_import loader (n + 1) filename st = (.ok (), st)) ∧
    (filename ∉ st.imported_modules →
     filename ∈ st.importing_stack →
      execute_import loader (n + 1) filename st
        = (.err ("Circular import bhettayo bro: " ++ filename), st)) ∧
    (filename ∉ st.imported_modules →
     filename ∉ st.importing_stack →
     loader filename = .ok prog →
      ∀ r st2,
        interpret_with_control loader n prog
            { st with importing_stack := filename :: st.importing_stack }
          = (r, st2) →
        ((∀ u, r = .ok u →
            execute_import loader (n + 1) filename st
              = (.ok (),
                  { st2 with
                    importing_stack := st2.importing_stack.tail,
                    imported_modules :=
                      modulesInsert filename st2.imported_modules })) ∧
         (∀ e, r = .err e →
            execute_import loader (n + 1) filename st
              = (.err ("Runtime error imported file \x27" ++ filename ++
                    "\x27 ma: " ++ e),
                  { st2 with
                    importing_stack := st2.importing_stack.tail,
                    imported_modules :=
                      modulesInsert filename st2.imported_modules })))) ∧
    (filename ∉ st.imported_modules →
     filename ∉ st.importing_stack →
     ∀ e, loader filename = .error e →
      execute_import loader (n + 1) filename st
        = (.err e,
            { st with importing_stack := filename :: st.importing_stack })) := by
  refine ⟨?_, ?_, ?_, ?_⟩
  · intro h
    simp [execute_import, h]
  · intro h1 h2
    simp [execute_import, h1, h2]
  · intro h1 h2 h3 r st2 hint
    constructor
    · intro u hu
      subst hu
      simp only [execute_import, h1, h2, h3, hint]
      simp [h1, h2]
    · intro e he
      subst he
      simp only [execute_import, h1, h2, h3, hint]
      simp [h1, h2]
  · intro h1 h2 e he
    simp [execute_import, h1, h2, he]

/-- Counterexample for C1 as stated: importing the module `m`, whose
program fails at runtime (an undefined variable), reports the wrapped
error, yet `m` **is** recorded as imported, and a second import of `m`
executes nothing and succeeds — the claim said a failed import leaves the
filename unrecorded so that a later import executes it again. -/
theorem C1_counterexample :
    (execute_import
        (fun _ => .ok (.Program [.Identifier "nope"])) 8 "m" InterpState.new).1
      = .err ("Runtime error imported file \x27m\x27 ma: " ++
          "Undefined variable: nope") ∧
    (execute_import
        (fun _ => .ok (.Program [.Identifier "nope"])) 8 "m"
        InterpState.new).2.imported_modules.contains "m" = true ∧
    execute_import (fun _ => .ok (.Program [.Identifier "nope"])) 8 "m"
        (execute_import
          (fun _ => .ok (.Program [.Identifier "nope"])) 8 "m"
          InterpState.new).2
      = (.ok (),
          (execute_import
            (fun _ => .ok (.Program [.Identifier "nope"])) 8 "m"
            InterpState.new).2) := by
  refine ⟨rfl, rfl, rfl⟩

/-- Witness for C1 (amended): importing an empty module records it and
pops the marker; the resulting state differs from the fresh one only by
the recorded filename. -/
theorem C1_witness :
    execute_import (fun _ => .ok (.Program [])) 3 "m" InterpState.new
      = (.ok (), { InterpState.new with imported_modules := ["m"] }) := by
  have h := (C1_import_bookkeeping (fun _ => .ok (.Program [])) 2 "m"
    InterpState.new (.Program [])).2.2.1 (by simp [InterpState.new])
    (by simp [InterpState.new]) rfl (.ok .None)
    { InterpState.new with importing_stack := ["m"] } rfl
  have h2 := h.1 .None rfl
  exact h2

end Khukuri
